import Mathlib

/-
Verification development for the exam-grading pipeline in src/app.py.

Modelling conventions:
  * Python strings are embedded as `List Char` (`Str`); slicing by indices
    becomes `List.drop`/`List.take`, which preserves the meaning of
    `re.Match.start`/`re.Match.end` positions because case folding keeps
    length.
  * Python float arithmetic on scores is embedded as exact rational
    arithmetic (`ℚ`); `round(x, 1)` becomes `pyround1`, round-half-to-even
    on tenths, matching CPython's documented rounding mode.
  * The regular-expression searches of `find_answer_by_marker` only ever use
    three pattern shapes: an escaped literal, literal words separated by
    `\s+`, and literal words separated by a non-greedy `.*?` (with
    IGNORECASE and DOTALL).  These are embedded directly: `mLit`, `mWsSep`
    and `mLazy` give the matched length at a fixed position, and `searchWith`
    performs the left-to-right scan that yields Python's leftmost match.
    For `\s+` gaps the gap consumed is the maximal whitespace run (the
    following literal word starts with a non-whitespace character), and for
    lazy `.*?` gaps each word is taken at its first occurrence, which is
    exactly the backtracking behaviour of the Python engine on these shapes.
  * Python truthiness (`if name`, `if final_score`, `if answer_text`) is
    modelled explicitly by `strTruthy` / `scoreTruthy`.
  * The OCR engine and the concrete regex captures of
    `extract_name_reg_from_top` are collaborators outside the segmentation
    core; the identity extractor is therefore embedded over the list of
    per-pattern captured groups (`Option Str`, one entry per pattern in
    source order), and the loops that consume them are translated verbatim.
-/

namespace ExamApp

abbrev Str := List Char

/-- ASCII whitespace, the characters matched by Python's `\s` and stripped
by `str.strip` on ASCII text. -/
def isWs (c : Char) : Bool :=
  c == ' ' || c == '\t' || c == '\n' || c == '\x0b' || c == '\x0c' || c == '\r'

/-- Case folding, modelling `re.IGNORECASE` on ASCII text. -/
def lc (s : Str) : Str := s.map Char.toLower

def stripLeft (s : Str) : Str := s.dropWhile isWs

/-- Python `str.strip()`. -/
def strip (s : Str) : Str := ((stripLeft s).reverse.dropWhile isWs).reverse

/-- Python `str.split(sep)` for a single-character separator: splits at every
occurrence, keeping empty pieces.  Used to model
`marker_text.replace(' ', gap)` as the word list between the gaps. -/
def splitChar (sep : Char) : Str → List Str
  | [] => [[]]
  | c :: s =>
    if c == sep then [] :: splitChar sep s
    else
      match splitChar sep s with
      | [] => [[c]]
      | w :: ws => (c :: w) :: ws

def splitWsGo : Str → Str → List Str
  | acc, [] => if acc.isEmpty then [] else [acc.reverse]
  | acc, c :: s =>
    if isWs c then
      if acc.isEmpty then splitWsGo [] s else acc.reverse :: splitWsGo [] s
    else splitWsGo (c :: acc) s

/-- Python `str.split()` with no argument: split on whitespace runs,
dropping empty pieces. -/
def splitWs (s : Str) : List Str := splitWsGo [] s

/-- Index of the first occurrence of `p` in `t` (both already folded),
`none` if `p` never occurs.  Models `re.search` of an escaped literal. -/
def findAt (p : Str) : Str → Option Nat
  | [] => if p.isPrefixOf ([] : Str) then some 0 else none
  | c :: s =>
    if p.isPrefixOf (c :: s) then some 0
    else (findAt p s).map (fun j => j + 1)

/-- Matcher for an escaped literal pattern anchored at the current position:
returns the matched length. -/
def mLit (p : Str) (s : Str) : Option Nat :=
  if p.isPrefixOf s then some p.length else none

/-- Length of the maximal whitespace run at the front. -/
def takeWsLen : Str → Nat
  | [] => 0
  | c :: s => if isWs c then takeWsLen s + 1 else 0

/-- Matcher for literal words separated by `\s+`, anchored at the current
position.  Since every following word starts with a non-whitespace
character, the regex engine necessarily consumes exactly the maximal
(nonempty) whitespace run between words. -/
def matchWsSep : List Str → Str → Option Nat
  | [], _ => some 0
  | [w], s => if w.isPrefixOf s then some w.length else none
  | w :: w2 :: ws, s =>
    if w.isPrefixOf s then
      let rest := s.drop w.length
      let k := takeWsLen rest
      if k = 0 then none
      else
        match matchWsSep (w2 :: ws) (rest.drop k) with
        | some len => some (w.length + k + len)
        | none => none
    else none

def mWsSep (words : List Str) (s : Str) : Option Nat := matchWsSep words s

/-- Lazy chain for `.*?` gaps: each word is taken at its first occurrence
after the previous one, which is the non-greedy leftmost-shortest behaviour
of `w1.*?w2.*?...` under DOTALL. -/
def lazyChain : List Str → Str → Nat → Option Nat
  | [], _, acc => some acc
  | w :: ws, s, acc =>
    match findAt w s with
    | none => none
    | some j => lazyChain ws (s.drop (j + w.length)) (acc + j + w.length)

/-- Matcher for literal words separated by non-greedy `.*?`, anchored at the
current position. -/
def mLazy (words : List Str) (s : Str) : Option Nat :=
  match words with
  | [] => some 0
  | w :: ws => if w.isPrefixOf s then lazyChain ws (s.drop w.length) w.length else none

/-- Left-to-right scan giving the leftmost match: `re.search` semantics for
any anchored matcher.  Returns `(start, end)` positions. -/
def searchWith (m : Str → Option Nat) : Str → Nat → Option (Nat × Nat)
  | [], i =>
    match m [] with
    | some len => some (i, i + len)
    | none => none
  | c :: s, i =>
    match m (c :: s) with
    | some len => some (i, i + len)
    | none => searchWith m s (i + 1)

/-- Case-insensitive search of an anchored matcher over a text: the matcher
receives folded suffixes, positions refer to the original text (folding
preserves length). -/
def searchCI (m : Str → Option Nat) (t : Str) : Option (Nat × Nat) :=
  searchWith m (lc t) 0

/-
`find_answer_by_marker` (src/app.py lines 110-164).  The three
`marker_variations` are the escaped literal, the words of the marker
(single-space split, as produced by `replace(' ', gap)`) separated by
`\s+`, and the same words separated by `.*?`; when the marker contains no
space the last two coincide with the literal, exactly as in the source
where the unchanged variation is re-escaped.  The fallback chains the
first three whitespace-split words with `.*?` and is attempted only when
there are at least two of them.
-/

/-- The marker search of `find_answer_by_marker`: the three variations in
order, then the first-three-words fallback, first success wins. -/
def marker_hit (t m : Str) : Option (Nat × Nat) :=
  match searchCI (mLit (lc m)) t with
  | some r => some r
  | none =>
    match searchCI (mWsSep (splitChar ' ' (lc m))) t with
    | some r => some r
    | none =>
      match searchCI (mLazy (splitChar ' ' (lc m))) t with
      | some r => some r
      | none =>
        if 2 ≤ ((splitWs (lc m)).take 3).length then
          searchCI (mLazy ((splitWs (lc m)).take 3)) t
        else none

/-- End-position search for the next marker inside `full_text[start_pos:]`:
the escaped literal first, then the first three words chained with `.*?`;
the end is the start of the first match, or end-of-text. -/
def next_hit_end (t : Str) (start_pos : Nat) (nm : Str) : Nat :=
  match searchCI (mLit (lc nm)) (t.drop start_pos) with
  | some r => start_pos + r.1
  | none =>
    match searchCI (mLazy ((splitWs (lc nm)).take 3)) (t.drop start_pos) with
    | some r => start_pos + r.1
    | none => t.length

/-- End position of the answer span: next-marker search when a next marker
exists, otherwise the 1000-character cap. -/
def end_pos_of (t : Str) (start_pos : Nat) : Option Str → Nat
  | some nm => next_hit_end t start_pos nm
  | none => min (start_pos + 1000) t.length

/-- The captured span `full_text[start_pos:end_pos].strip()`. -/
def answer_cut (t : Str) (s e : Nat) : Str := strip ((t.drop s).take (e - s))

/-- `find_answer_by_marker(full_text, marker_text, next_marker)`. -/
def find_answer_by_marker (t m : Str) (next_marker : Option Str) : Option Str :=
  match marker_hit t m with
  | none => none
  | some se =>
    if answer_cut t se.2 (end_pos_of t se.2 next_marker) ≠ [] ∧
        5 < (answer_cut t se.2 (end_pos_of t se.2 next_marker)).length then
      some (answer_cut t se.2 (end_pos_of t se.2 next_marker))
    else none

/-
Rational arithmetic.  The `+`, `*`, `-`, `/` operations on `ℚ` are
`@[irreducible]` in the ambient library, so a definition using them cannot
be evaluated by the kernel on concrete inputs.  Every score computation is
therefore expressed through `qadd` / `qmul` / `Rat.divInt`, which reduce;
`qadd_eq` and `qmul_eq` below prove them equal to `+` and `*`, and
`Rat.divInt_eq_div` relates `Rat.divInt` to `/`, so claim statements can
still be phrased with the ordinary operations.
-/

/-- Rational addition in evaluable form: equal to `a + b` (`qadd_eq`). -/
def qadd (a b : ℚ) : ℚ :=
  Rat.divInt (a.num * (b.den : ℤ) + b.num * (a.den : ℤ)) ((a.den : ℤ) * (b.den : ℤ))

/-- Rational multiplication in evaluable form: equal to `a * b`
(`qmul_eq`). -/
def qmul (a b : ℚ) : ℚ :=
  Rat.divInt (a.num * b.num) ((a.den : ℤ) * (b.den : ℤ))

/- Quality assessment (src/app.py lines 166-185). -/

inductive Verdict
  | OK | TOO_SHORT | SUSPECT_OCR | UNREADABLE
  deriving DecidableEq

inductive Flag
  | PASS | LENGTH_CHECK | HIGH_GARBAGE | MISSING_TEXT
  deriving DecidableEq

def garbage_str : String := "!@#$%^&*()[]\x7b\x7d|\\/<>~\x60"

def GARBAGE_CHARS : Str := garbage_str.data

def GARBAGE_THRESHOLD : ℚ := Rat.divInt 3 10

/-- `calculate_garbage_ratio(text)`: the exact quotient
garbage count / length. -/
def calculate_garbage_ratio (text : Str) : ℚ :=
  if text.isEmpty then 0
  else Rat.divInt (text.countP (fun c => GARBAGE_CHARS.contains c) : ℤ) (text.length : ℤ)

/-- `assess_ocr_quality(answer_text, min_length)`. -/
def assess_ocr_quality (answer_text : Option Str) (min_length : Nat) : Verdict × Flag :=
  match answer_text with
  | none => (Verdict.UNREADABLE, Flag.MISSING_TEXT)
  | some t =>
    if t.length < min_length then (Verdict.TOO_SHORT, Flag.LENGTH_CHECK)
    else if GARBAGE_THRESHOLD < calculate_garbage_ratio t then
      (Verdict.SUSPECT_OCR, Flag.HIGH_GARBAGE)
    else (Verdict.OK, Flag.PASS)

/- Grading (src/app.py lines 187-206). -/

inductive AiStatus
  | UNREADABLE | AUTO_LOW | AUTO_MEDIUM | AUTO_HIGH | NO_ANSWER
  deriving DecidableEq

/-- Round a rational to the nearest integer, ties to even: the fractional
part is `r / den` with `r = num - floor * den`, so comparing it with 1/2
is comparing `2 * r` with `den`. -/
def pyround1Int (x : ℚ) : ℤ :=
  let f : ℤ := Int.fdiv x.num x.den
  let r : ℤ := x.num - f * (x.den : ℤ)
  if 2 * r < (x.den : ℤ) then f
  else if (x.den : ℤ) < 2 * r then f + 1
  else if f % 2 = 0 then f else f + 1

/-- Python `round(x, 1)`: round half to even on tenths. -/
def pyround1 (q : ℚ) : ℚ :=
  Rat.divInt (pyround1Int (Rat.divInt (10 * q.num) (q.den : ℤ))) 10

/-- Python truthiness of an optional string: `None` and `""` are falsy. -/
def strTruthy : Option Str → Bool
  | none => false
  | some s => !s.isEmpty

/-- `dummy_grade(answer_text, max_marks, ocr_status)`.  Scores:
`round(max * 0.3, 1)` for TOO_SHORT, `round(max * 0.6, 1)` for
SUSPECT_OCR and, for OK with a truthy fragment,
`round(max * (0.5 + 0.5 * min(len / 200, 1.0)), 1)`, written with the
evaluable rational operations. -/
def dummy_grade (answer_text : Option Str) (max_marks : ℚ) (ocr_status : Verdict) :
    Option ℚ × AiStatus :=
  if ocr_status = Verdict.UNREADABLE then (none, AiStatus.UNREADABLE)
  else if ocr_status = Verdict.TOO_SHORT then
    (some (pyround1 (qmul max_marks (Rat.divInt 3 10))), AiStatus.AUTO_LOW)
  else if ocr_status = Verdict.SUSPECT_OCR then
    (some (pyround1 (qmul max_marks (Rat.divInt 6 10))), AiStatus.AUTO_MEDIUM)
  else if strTruthy answer_text then
    (some (pyround1 (qmul max_marks
        (qadd (Rat.divInt 1 2)
          (qmul (Rat.divInt 1 2)
            (min (Rat.divInt ((answer_text.getD []).length : ℤ) 200) 1))))),
     AiStatus.AUTO_HIGH)
  else (none, AiStatus.NO_ANSWER)

/-
Identity extraction (src/app.py lines 55-108).  OCR and the regex engine
are collaborators here: the embedding receives, for each of the three name
patterns and four registration patterns (in source order), the raw
captured group of `re.search`, or `none` when the pattern does not match.
The retention loops, the cleaning, the thresholds and the status
computation are translated verbatim.
-/

inductive IdStatus
  | OK | PARTIAL | NEEDS_MANUAL_FIX | ERROR | NO_IMAGE
  deriving DecidableEq

/-- Cleaning applied to a name capture: `strip()` then removal of every
character outside `[A-Za-z\s.]`. -/
def cleanName (g : Str) : Str :=
  (strip g).filter (fun c => c.isAlpha || isWs c || c == '.')

/-- The name retention loop: each match overwrites `name`; the loop breaks
at the first cleaned capture longer than 3 characters. -/
def nameLoop : Option Str → List (Option Str) → Option Str
  | acc, [] => acc
  | acc, none :: rest => nameLoop acc rest
  | _, some g :: rest =>
    if 3 < (cleanName g).length then some (cleanName g)
    else nameLoop (some (cleanName g)) rest

/-- The registration retention loop: each match overwrites `reg` with the
stripped capture; the loop breaks at the first capture of length at
least 4. -/
def regLoop : Option Str → List (Option Str) → Option Str
  | acc, [] => acc
  | acc, none :: rest => regLoop acc rest
  | _, some g :: rest =>
    if 4 ≤ (strip g).length then some (strip g)
    else regLoop (some (strip g)) rest

/-- The status computation: Python truthiness of `name` and `reg`. -/
def idStatusOf (name reg : Option Str) : IdStatus :=
  if strTruthy name && strTruthy reg then IdStatus.OK
  else if strTruthy name || strTruthy reg then IdStatus.PARTIAL
  else IdStatus.NEEDS_MANUAL_FIX

/-- `extract_name_reg_from_top`, over the per-pattern captures.  The
exception path returning `ERROR` is outside the embedding (no step of the
embedded computation can raise). -/
def extract_name_reg_from_top (has_img : Bool)
    (name_matches reg_matches : List (Option Str)) :
    Option Str × Option Str × IdStatus :=
  if !has_img then (none, none, IdStatus.NO_IMAGE)
  else
    (nameLoop none name_matches, regLoop none reg_matches,
     idStatusOf (nameLoop none name_matches) (regLoop none reg_matches))

/- Script pipeline (src/app.py lines 212-294). -/

inductive ReviewFlag
  | OK | NEEDS_REVIEW
  deriving DecidableEq

inductive Disposition
  | AUTO_COMPLETE | PARTIAL_MANUAL | FULL_MANUAL | PDF_ERROR
  deriving DecidableEq

structure QuestionDef where
  key : String
  qname : String
  marks : ℚ
  marker_text : Str
  min_length : Nat
  deriving DecidableEq

/-- The per-question cells of the result row.  A `none` score field models
the empty-string cell written when the score is falsy. -/
structure QuestionResult where
  final_score : Option ℚ
  ai_score : Option ℚ
  ocr_status : Verdict
  ocr_flag : Flag
  ai_status : AiStatus
  ai_flag : ReviewFlag
  deriving DecidableEq

structure ScriptResult where
  script_name : String
  id_status : Option IdStatus
  script_status : Disposition
  questions : List QuestionResult
  total_score : ℚ
  deriving DecidableEq

/-- Python truthiness of an optional score: `None` and `0` are falsy. -/
def scoreTruthy : Option ℚ → Bool
  | none => false
  | some v => decide (v ≠ 0)

/-- The cell written for a score field: `score if score else ""`. -/
def record_cell (s : Option ℚ) : Option ℚ :=
  if scoreTruthy s then s else none

/-- One iteration of the question loop: segment, assess, grade, record.
Returns the recorded row cells together with the raw `final_score` used
for the total. -/
def questionStep (t : Str) (q : QuestionDef) (next_marker : Option Str) :
    QuestionResult × Option ℚ :=
  let ans := find_answer_by_marker t q.marker_text next_marker
  let a := assess_ocr_quality ans q.min_length
  let g := dummy_grade ans q.marks a.1
  (⟨record_cell g.1, record_cell g.1, a.1, a.2, g.2,
    if a.1 ≠ Verdict.OK then ReviewFlag.NEEDS_REVIEW else ReviewFlag.OK⟩, g.1)

/-- The question loop, using the following question's marker as boundary
(`none` for the last question). -/
def processQuestions (t : Str) : List QuestionDef → List (QuestionResult × Option ℚ)
  | [] => []
  | q :: rest =>
    questionStep t q
        (match rest with
         | [] => none
         | q2 :: _ => some q2.marker_text) ::
      processQuestions t rest

/-- The `all_unreadable` / `some_readable` flags tracked across the
question loop, starting from `(true, false)`. -/
def track_readability : List Verdict → Bool → Bool → Bool × Bool
  | [], all_unreadable, some_readable => (all_unreadable, some_readable)
  | v :: vs, all_unreadable, some_readable =>
    if v ≠ Verdict.UNREADABLE then track_readability vs false true
    else track_readability vs all_unreadable some_readable

/-- Membership of a verdict in `['UNREADABLE', 'TOO_SHORT', 'SUSPECT_OCR']`. -/
def needsReview (v : Verdict) : Bool :=
  decide (v = Verdict.UNREADABLE) || decide (v = Verdict.TOO_SHORT) ||
    decide (v = Verdict.SUSPECT_OCR)

/-- The overall script status computed after the question loop. -/
def disposition (vs : List Verdict) : Disposition :=
  if (track_readability vs true false).1 then Disposition.FULL_MANUAL
  else if !(track_readability vs true false).2 then Disposition.FULL_MANUAL
  else if vs.any needsReview then Disposition.PARTIAL_MANUAL
  else Disposition.AUTO_COMPLETE

/-- The `total_score` accumulation: starting from 0, each truthy
`final_score` is added. -/
def total_raw (l : List (Option ℚ)) : ℚ :=
  l.foldl (fun acc s => if scoreTruthy s then qadd acc (s.getD 0) else acc) 0

/-- `process_single_script`.  The transcript (with the first-page image
already consumed by identity extraction, whose result is the `ident`
collaborator value) is `none` exactly when `extract_text_from_pdf`
failed. -/
def process_single_script (nm : String)
    (ident : Option Str × Option Str × IdStatus)
    (full_text : Option Str) (qs : List QuestionDef) : ScriptResult :=
  match full_text with
  | none =>
    { script_name := nm, id_status := none, script_status := Disposition.PDF_ERROR,
      questions := [], total_score := 0 }
  | some t =>
    { script_name := nm,
      id_status := some ident.2.2,
      script_status := disposition ((processQuestions t qs).map (fun p => p.1.ocr_status)),
      questions := (processQuestions t qs).map Prod.fst,
      total_score := pyround1 (total_raw ((processQuestions t qs).map Prod.snd)) }

/- Batch aggregation (src/app.py lines 296-341 and the loop in main). -/

/-- The per-script loop of `main`: every uploaded script yields exactly one
result row, in input order. -/
def run_batch (scripts : List (String × (Option Str × Option Str × IdStatus) × Option Str))
    (qs : List QuestionDef) : List ScriptResult :=
  scripts.map (fun s => process_single_script s.1 s.2.1 s.2.2 qs)

/-- The issue scan of `generate_excel`: unreadable identity, any flagged
question, or a zero (falsy) total score. -/
def script_issues (r : ScriptResult) : Bool :=
  decide (r.id_status = some IdStatus.NEEDS_MANUAL_FIX ∨ r.id_status = some IdStatus.PARTIAL) ||
  r.questions.any (fun q => needsReview q.ocr_status) ||
  decide (r.total_score = 0)

/-- The manual-review subset: the rows with a nonempty issue list. -/
def review_list (rs : List ScriptResult) : List ScriptResult :=
  rs.filter script_issues

/- The concrete exam configuration (src/app.py lines 14-33). -/

def marker1_str : String := "Summarize the information"

def marker2_str : String := "Public Transportation In Dhaka"

def marker3_str : String := "An increasing number of people are buying"

def q1_name : String := "Chart Summary"

def q2_name : String := "Public Transport in Dhaka"

def q3_name : String := "Online Shopping A&D"

def key1 : String := "Q1"

def key2 : String := "Q2"

def key3 : String := "Q3"

def EXAM_QUESTIONS : List QuestionDef :=
  [⟨key1, q1_name, 15, marker1_str.data, 40⟩,
   ⟨key2, q2_name, 7, marker2_str.data, 40⟩,
   ⟨key3, q3_name, 8, marker3_str.data, 40⟩]

/-
Specification-side definitions.  These follow the words of the claims (not
the source) and exist to be compared with the source-side definitions
above.
-/

/-- The first defined value in a list of attempts. -/
def firstSome {α : Type} : List (Option α) → Option α
  | [] => none
  | o :: rest =>
    match o with
    | some a => some a
    | none => firstSome rest

/-- Claim C4, spec side: the four match strategies in the stated order —
exact case-insensitive literal; spaces as one-or-more whitespace; spaces as
non-greedy any-characters; first-three-words fallback only when the phrase
has at least two words. -/
def strategies_spec (t m : Str) : List (Option (Nat × Nat)) :=
  [searchCI (mLit (lc m)) t,
   searchCI (mWsSep (splitChar ' ' (lc m))) t,
   searchCI (mLazy (splitChar ' ' (lc m))) t] ++
    (if 2 ≤ ((splitWs (lc m)).take 3).length then
      [searchCI (mLazy ((splitWs (lc m)).take 3)) t]
    else [])

/-- Claim C4, spec side: the span ends at the start of the next marker's
match in the remainder of the transcript (exact literal, then
first-three-words fallback), or end-of-transcript when not found; for the
last question at `min(start + 1000, end-of-transcript)`. -/
def segment_end_spec (t : Str) (s : Nat) : Option Str → Nat
  | some nm =>
    match firstSome
        [searchCI (mLit (lc nm)) (t.drop s),
         searchCI (mLazy ((splitWs (lc nm)).take 3)) (t.drop s)] with
    | some r => s + r.1
    | none => t.length
  | none => min (s + 1000) t.length

/-- Claim C4, spec side: take the first strategy that matches (`none` when
none match); cut and trim the span; the result is `none` whenever the
trimmed span is empty or at most 5 characters. -/
def segment_spec (t m : Str) (next_marker : Option Str) : Option Str :=
  match firstSome (strategies_spec t m) with
  | none => none
  | some se =>
    if answer_cut t se.2 (segment_end_spec t se.2 next_marker) = [] ∨
        (answer_cut t se.2 (segment_end_spec t se.2 next_marker)).length ≤ 5 then
      none
    else some (answer_cut t se.2 (segment_end_spec t se.2 next_marker))

/-- Claim C3 (amended), spec side: the retained name is the first cleaned
capture longer than 3 characters if one exists, otherwise the last cleaned
capture. -/
def nameSpec (ms : List (Option Str)) : Option Str :=
  match ((ms.filterMap id).map cleanName).find? (fun n => decide (3 < n.length)) with
  | some n => some n
  | none =>
    match ((ms.filterMap id).map cleanName).getLast? with
    | some n => some n
    | none => none

/-- Claim C3 (amended), spec side: the retained identifier is the first
stripped capture of length at least 4 if one exists, otherwise the last
stripped capture. -/
def regSpec (ms : List (Option Str)) : Option Str :=
  match ((ms.filterMap id).map strip).find? (fun n => decide (4 ≤ n.length)) with
  | some n => some n
  | none =>
    match ((ms.filterMap id).map strip).getLast? with
    | some n => some n
    | none => none

/- Concrete inputs used by counterexamples and witnesses. -/

/-- A transcript in which all three configured markers are found and every
answer span trims to 8 characters: every question is readable but too
short. -/
def exT_str : String := "Summarize the information ABCDEFGH Public Transportation In Dhaka IJKLMNOP An increasing number of people are buying QRSTUVWX"

def exT : Str := exT_str.data

def ans40 : Str := List.replicate 40 'a'

/-- A transcript in which all three configured answers are 40 plain
characters: every question's verdict is OK. -/
def goodT : Str :=
  marker1_str.data ++ [' '] ++ ans40 ++ [' '] ++ marker2_str.data ++ [' '] ++ ans40 ++
    [' '] ++ marker3_str.data ++ [' '] ++ ans40

def ab_str : String := "Ab"

/-- A short name capture: `"Ab"`, as produced by the first name pattern on
header text `"Name: Ab"` (where the remaining patterns do not match). -/
def abCap : Str := ab_str.data

def sName : String := "s"

/-- The first configured question, used to instantiate per-question facts. -/
def qd1 : QuestionDef := ⟨key1, q1_name, 15, marker1_str.data, 40⟩

def noiseShort : Str := List.replicate 4 '!'

def noisy10 : Str := List.replicate 4 '!' ++ List.replicate 6 'a'

def edge10 : Str := List.replicate 3 '!' ++ List.replicate 7 'a'

def clean10 : Str := List.replicate 10 'a'

/- Theorems. -/

/-- `qadd` agrees with rational addition. -/
theorem qadd_eq (a b : ℚ) : qadd a b = a + b := by
  rw [qadd, Rat.add_num_den a b]
  congr 1
  ring

/-- `qmul` agrees with rational multiplication. -/
theorem qmul_eq (a b : ℚ) : qmul a b = a * b := by
  have ha : ((a.den : ℤ)) ≠ 0 := Int.natCast_ne_zero_iff_pos.2 a.pos
  have hb : ((b.den : ℤ)) ≠ 0 := Int.natCast_ne_zero_iff_pos.2 b.pos
  rw [qmul]
  conv_rhs => rw [← Rat.num_divInt_den a, ← Rat.num_divInt_den b]
  rw [Rat.divInt_mul_divInt _ _ ha hb]

/-- The TOO_SHORT score in ordinary notation. -/
theorem qscore_low (m : ℚ) : qmul m (Rat.divInt 3 10) = m * (3 / 10) := by
  rw [qmul_eq, Rat.divInt_eq_div]
  norm_num

/-- The SUSPECT_OCR score in ordinary notation. -/
theorem qscore_medium (m : ℚ) : qmul m (Rat.divInt 6 10) = m * (6 / 10) := by
  rw [qmul_eq, Rat.divInt_eq_div]
  norm_num

/-- The AUTO_HIGH score in ordinary notation. -/
theorem qscore_high (m : ℚ) (n : ℕ) :
    qmul m (qadd (Rat.divInt 1 2) (qmul (Rat.divInt 1 2) (min (Rat.divInt (n : ℤ) 200) 1))) =
      m * (1 / 2 + 1 / 2 * min ((n : ℚ) / 200) 1) := by
  rw [qmul_eq, qadd_eq, qmul_eq, Rat.divInt_eq_div, Rat.divInt_eq_div]
  push_cast
  rfl

/-- The grader's OK branch on a nonempty fragment, in ordinary notation. -/
theorem dummy_grade_ok_cons (m : ℚ) (c : Char) (s : Str) :
    dummy_grade (some (c :: s)) m Verdict.OK =
      (some (pyround1 (m * (1 / 2 + 1 / 2 * min (((c :: s).length : ℚ) / 200) 1))),
       AiStatus.AUTO_HIGH) := by
  rw [← qscore_high m (c :: s).length]
  rfl

/-- Claim C5: the quality assessor returns `(UNREADABLE, MISSING_TEXT)` for
an absent fragment; `(TOO_SHORT, LENGTH_CHECK)` whenever the length is
below the minimum, regardless of noise content; otherwise
`(SUSPECT_OCR, HIGH_GARBAGE)` exactly when the noise ratio is strictly
greater than 0.3; and `(OK, PASS)` otherwise (so a ratio of exactly 0.3
yields OK). -/
theorem C5_theorem (t : Str) (min_length : Nat) :
    GARBAGE_THRESHOLD = 3 / 10 ∧
    assess_ocr_quality none min_length = (Verdict.UNREADABLE, Flag.MISSING_TEXT) ∧
    (t.length < min_length →
      assess_ocr_quality (some t) min_length = (Verdict.TOO_SHORT, Flag.LENGTH_CHECK)) ∧
    (min_length ≤ t.length →
      (assess_ocr_quality (some t) min_length = (Verdict.SUSPECT_OCR, Flag.HIGH_GARBAGE) ↔
        GARBAGE_THRESHOLD < calculate_garbage_ratio t)) ∧
    (min_length ≤ t.length → ¬ GARBAGE_THRESHOLD < calculate_garbage_ratio t →
      assess_ocr_quality (some t) min_length = (Verdict.OK, Flag.PASS)) := by
  refine ⟨?_, rfl, ?_, ?_, ?_⟩
  · rw [GARBAGE_THRESHOLD, Rat.divInt_eq_div]
    norm_num
  · intro h
    simp [assess_ocr_quality, h]
  · intro h
    have hlt : ¬ t.length < min_length := Nat.not_lt.mpr h
    by_cases hg : GARBAGE_THRESHOLD < calculate_garbage_ratio t
    · simp [assess_ocr_quality, hlt, hg]
    · simp [assess_ocr_quality, hlt, hg]
  · intro h hg
    have hlt : ¬ t.length < min_length := Nat.not_lt.mpr h
    simp [assess_ocr_quality, hlt, hg]

/-- Witness for C5: a fragment made entirely of noise characters but
shorter than the minimum is `TOO_SHORT` (precedence of the length check);
a 10-character fragment with 4 noise characters (ratio 0.4) is
`SUSPECT_OCR`; one with exactly 3 noise characters (ratio exactly 0.3) is
`OK`; a clean fragment is `OK`. -/
theorem C5_witness :
    assess_ocr_quality (some noiseShort) 40 = (Verdict.TOO_SHORT, Flag.LENGTH_CHECK) ∧
    assess_ocr_quality (some noisy10) 1 = (Verdict.SUSPECT_OCR, Flag.HIGH_GARBAGE) ∧
    assess_ocr_quality (some edge10) 1 = (Verdict.OK, Flag.PASS) ∧
    assess_ocr_quality (some clean10) 1 = (Verdict.OK, Flag.PASS) :=
  ⟨(C5_theorem noiseShort 40).2.2.1 (by decide),
   ((C5_theorem noisy10 1).2.2.2.1 (by decide)).mpr (by decide),
   (C5_theorem edge10 1).2.2.2.2 (by decide) (by decide),
   (C5_theorem clean10 1).2.2.2.2 (by decide) (by decide)⟩

/-- Counterexample for C6: an empty-string fragment is present (not
absent), yet with verdict `OK` the grader returns `(None, NO_ANSWER)`
rather than the claimed `AUTO_HIGH` length-scaled score, because the
source tests Python truthiness (`if answer_text:`), under which the empty
string is falsy. -/
theorem C6_counterexample :
    dummy_grade (some []) 10 Verdict.OK = (none, AiStatus.NO_ANSWER) ∧
    dummy_grade (some []) 10 Verdict.OK ≠
      (some (pyround1 (10 * (1 / 2 + 1 / 2 * min ((([] : Str).length : ℚ) / 200) 1))),
       AiStatus.AUTO_HIGH) := by decide

/-- Claim C6 (amended): the grader returns `(None, UNREADABLE)` for
verdict `UNREADABLE`; `(round(max*0.3,1), AUTO_LOW)` for `TOO_SHORT`;
`(round(max*0.6,1), AUTO_MEDIUM)` for `SUSPECT_OCR`; for `OK` with a
present and nonempty fragment the length-scaled `AUTO_HIGH` score; and
`(None, NO_ANSWER)` for `OK` with the fragment absent or empty. -/
theorem C6_theorem (ans : Option Str) (m : ℚ) (t : Str) (h : t ≠ []) :
    dummy_grade ans m Verdict.UNREADABLE = (none, AiStatus.UNREADABLE) ∧
    dummy_grade ans m Verdict.TOO_SHORT =
      (some (pyround1 (m * (3 / 10))), AiStatus.AUTO_LOW) ∧
    dummy_grade ans m Verdict.SUSPECT_OCR =
      (some (pyround1 (m * (6 / 10))), AiStatus.AUTO_MEDIUM) ∧
    dummy_grade (some t) m Verdict.OK =
      (some (pyround1 (m * (1 / 2 + 1 / 2 * min ((t.length : ℚ) / 200) 1))),
       AiStatus.AUTO_HIGH) ∧
    dummy_grade none m Verdict.OK = (none, AiStatus.NO_ANSWER) ∧
    dummy_grade (some []) m Verdict.OK = (none, AiStatus.NO_ANSWER) := by
  refine ⟨rfl, ?_, ?_, ?_, rfl, rfl⟩
  · simp [dummy_grade, qscore_low]
  · simp [dummy_grade, qscore_medium]
  · cases t with
    | nil => exact absurd rfl h
    | cons c s => exact dummy_grade_ok_cons m c s

/-- Witness for C6: the amended grader contract at a concrete nonempty
fragment. -/
theorem C6_witness :
    dummy_grade (some clean10) 15 Verdict.OK =
      (some (pyround1 (15 * (1 / 2 + 1 / 2 * min ((clean10.length : ℚ) / 200) 1))),
       AiStatus.AUTO_HIGH) :=
  (C6_theorem none 15 clean10 (by decide)).2.2.2.1

/-- Claim C8: a missing transcript yields a `PDF_ERROR` result with no
question fields and a zero total, the script still occupies exactly one
row of the batch output, and the rest of the batch is processed
unchanged. -/
theorem C8_theorem (nm : String) (ident : Option Str × Option Str × IdStatus)
    (qs : List QuestionDef)
    (scripts : List (String × (Option Str × Option Str × IdStatus) × Option Str)) :
    (run_batch scripts qs).length = scripts.length ∧
    (process_single_script nm ident none qs).script_status = Disposition.PDF_ERROR ∧
    (process_single_script nm ident none qs).questions = [] ∧
    (process_single_script nm ident none qs).total_score = 0 ∧
    (process_single_script nm ident none qs).id_status = none ∧
    run_batch ((nm, ident, none) :: scripts) qs =
      process_single_script nm ident none qs :: run_batch scripts qs := by
  refine ⟨?_, rfl, rfl, rfl, rfl, rfl⟩
  simp [run_batch]

/-- Each question row's review flag is computed from its verdict. -/
theorem questionStep_flag (t : Str) (q : QuestionDef) (next_marker : Option Str) :
    ((questionStep t q next_marker).1.ai_flag = ReviewFlag.NEEDS_REVIEW ↔
      (questionStep t q next_marker).1.ocr_status ≠ Verdict.OK) ∧
    ((questionStep t q next_marker).1.ai_flag = ReviewFlag.OK ↔
      (questionStep t q next_marker).1.ocr_status = Verdict.OK) := by
  by_cases h : (assess_ocr_quality (find_answer_by_marker t q.marker_text next_marker)
      q.min_length).1 = Verdict.OK
  · simp [questionStep, h]
  · simp [questionStep, h]

/-- Every question row of a processed script satisfies the review-flag
invariant. -/
theorem processQuestions_flag (t : Str) (qs : List QuestionDef) :
    ∀ p ∈ processQuestions t qs,
      ((p.1.ai_flag = ReviewFlag.NEEDS_REVIEW ↔ p.1.ocr_status ≠ Verdict.OK) ∧
       (p.1.ai_flag = ReviewFlag.OK ↔ p.1.ocr_status = Verdict.OK)) := by
  induction qs with
  | nil =>
    intro p hp
    simp [processQuestions] at hp
  | cons q rest ih =>
    intro p hp
    simp only [processQuestions] at hp
    rcases List.mem_cons.mp hp with h | h
    · subst h
      exact questionStep_flag t q _
    · exact ih p h

/-- Claim C9: for every question result produced by the pipeline, the
manual-review flag is `NEEDS_REVIEW` exactly when the question's quality
verdict is not `OK`, and `OK` otherwise. -/
theorem C9_theorem (nm : String) (ident : Option Str × Option Str × IdStatus)
    (full_text : Option Str) (qs : List QuestionDef) :
    ((process_single_script nm ident full_text qs).questions.all
      (fun qr =>
        decide (qr.ai_flag = ReviewFlag.NEEDS_REVIEW ↔ qr.ocr_status ≠ Verdict.OK) &&
        decide (qr.ai_flag = ReviewFlag.OK ↔ qr.ocr_status = Verdict.OK))) = true := by
  cases full_text with
  | none => rfl
  | some t =>
    rw [List.all_eq_true]
    intro qr hqr
    simp only [process_single_script] at hqr
    obtain ⟨p, hp, rfl⟩ := List.mem_map.mp hqr
    have h := processQuestions_flag t qs p hp
    simp only [Bool.and_eq_true, decide_eq_true_eq]
    exact h

/-- Claim C10: a `None` or zero score is recorded as the empty cell in
both score fields, contributes nothing to the total, and a question graded
exactly 0 is indistinguishable in the output from a question with no
score. -/
theorem C10_theorem (t : Str) (q : QuestionDef) (next_marker : Option Str)
    (s : Option ℚ) (l : List (Option ℚ)) (h : s = none ∨ s = some 0) :
    record_cell s = none ∧
    total_raw (s :: l) = total_raw l ∧
    record_cell (some 0) = record_cell none ∧
    (questionStep t q next_marker).1.final_score =
      record_cell (questionStep t q next_marker).2 ∧
    (questionStep t q next_marker).1.ai_score =
      record_cell (questionStep t q next_marker).2 := by
  have hs : scoreTruthy s = false := by
    rcases h with h | h <;> subst h <;> decide
  refine ⟨?_, ?_, by decide, rfl, rfl⟩
  · simp [record_cell, hs]
  · simp [total_raw, hs]

/-- Witness for C10: a question score of exactly 0 is hidden and inert. -/
theorem C10_witness :
    (some (0 : ℚ) = none ∨ some (0 : ℚ) = some 0) ∧
    record_cell (some 0) = none ∧
    total_raw [some (0 : ℚ), some 1] = total_raw [some 1] ∧
    record_cell (some 0) = record_cell none :=
  have h := C10_theorem [] qd1 none (some 0) [some 1] (Or.inr rfl)
  ⟨Or.inr rfl, h.1, h.2.1, h.2.2.1⟩

/-- The loop contribution of a score equals the recorded cell read back
with 0 for the empty cell. -/
theorem record_contrib (s : Option ℚ) :
    (if scoreTruthy s then s.getD 0 else 0) = (record_cell s).getD 0 := by
  by_cases hs : scoreTruthy s = true
  · rw [if_pos hs, record_cell, if_pos hs]
  · rw [if_neg hs, record_cell, if_neg hs]
    rfl

/-- The total accumulation as a sum over recorded cells, accumulator
generalised. -/
theorem total_raw_acc (l : List (Option ℚ)) :
    ∀ acc : ℚ,
      l.foldl (fun acc s => if scoreTruthy s then qadd acc (s.getD 0) else acc) acc =
        acc + (l.map (fun s => (record_cell s).getD 0)).sum := by
  induction l with
  | nil =>
    intro acc
    simp
  | cons s rest ih =>
    intro acc
    rw [List.foldl_cons, ih]
    simp only [List.map_cons, List.sum_cons, record_cell]
    by_cases hs : scoreTruthy s = true
    · rw [if_pos hs, if_pos hs, qadd_eq]
      ring
    · rw [if_neg hs, if_neg hs]
      simp

/-- `total_raw` is the sum of the recorded cells. -/
theorem total_raw_eq (l : List (Option ℚ)) :
    total_raw l = (l.map (fun s => (record_cell s).getD 0)).sum := by
  simpa [total_raw] using total_raw_acc l 0

/-- The raw scores of the question loop, read through `record_cell`, are
the recorded `final_score` cells. -/
theorem processQuestions_scores (t : Str) (qs : List QuestionDef) :
    ((processQuestions t qs).map Prod.snd).map (fun s => (record_cell s).getD 0) =
      ((processQuestions t qs).map Prod.fst).map (fun qr => qr.final_score.getD 0) := by
  induction qs with
  | nil => rfl
  | cons q rest ih =>
    simp only [processQuestions, List.map_cons]
    rw [ih]
    exact rfl

/-- Claim C7: the recorded total score equals the sum of the per-question
final scores rounded to one decimal, and for scores 4.5, 3.0 and 6.8 the
total is 14.3. -/
theorem C7_theorem (nm : String) (ident : Option Str × Option Str × IdStatus) (t : Str)
    (qs : List QuestionDef) :
    (process_single_script nm ident (some t) qs).total_score =
      pyround1 (((process_single_script nm ident (some t) qs).questions.map
        (fun qr => qr.final_score.getD 0)).sum) ∧
    pyround1 (total_raw [some ((9 : ℚ) / 2), some 3, some (34 / 5)]) = 143 / 10 := by
  constructor
  · simp only [process_single_script]
    rw [total_raw_eq, processQuestions_scores]
  · have h1 : total_raw [some ((9 : ℚ) / 2), some 3, some (34 / 5)] = 143 / 10 := by
      rw [total_raw_eq]
      simp only [List.map_cons, List.map_nil, List.sum_cons, List.sum_nil,
        record_cell, scoreTruthy]
      norm_num
    rw [h1]
    have h2 : (143 : ℚ) / 10 = Rat.divInt 143 10 := by
      rw [Rat.divInt_eq_div]
      norm_num
    rw [h2]
    decide

/-- The tracked `all_unreadable` flag is the conjunction over the loop. -/
theorem track_fst (vs : List Verdict) :
    ∀ a s : Bool,
      (track_readability vs a s).1 =
        (a && vs.all (fun v => decide (v = Verdict.UNREADABLE))) := by
  induction vs with
  | nil =>
    intro a s
    simp [track_readability]
  | cons v rest ih =>
    intro a s
    by_cases hv : v = Verdict.UNREADABLE
    · simp [track_readability, hv, ih]
    · simp [track_readability, hv, ih]

/-- The tracked `some_readable` flag is the disjunction over the loop. -/
theorem track_snd (vs : List Verdict) :
    ∀ a s : Bool,
      (track_readability vs a s).2 =
        (s || vs.any (fun v => decide (¬ v = Verdict.UNREADABLE))) := by
  induction vs with
  | nil =>
    intro a s
    simp [track_readability]
  | cons v rest ih =>
    intro a s
    by_cases hv : v = Verdict.UNREADABLE
    · simp [track_readability, hv, ih]
    · simp [track_readability, hv, ih]

/-- Some verdict is readable exactly when not all are unreadable. -/
theorem any_not_unreadable (vs : List Verdict) :
    vs.any (fun v => decide (¬ v = Verdict.UNREADABLE)) =
      !vs.all (fun v => decide (v = Verdict.UNREADABLE)) := by
  induction vs with
  | nil => rfl
  | cons v rest ih =>
    simp only [List.any_cons, List.all_cons, ih, Bool.not_and]
    by_cases hv : v = Verdict.UNREADABLE <;> simp [hv]

/-- A verdict needs review exactly when it is not `OK`. -/
theorem needsReview_iff (v : Verdict) : needsReview v = true ↔ v ≠ Verdict.OK := by
  cases v <;> simp [needsReview]

/-- The script status in terms of the verdict list: the dead second branch
of the source (`not some_readable`) collapses into the first. -/
theorem disposition_eq_cases (vs : List Verdict) :
    disposition vs =
      (if vs.all (fun v => decide (v = Verdict.UNREADABLE)) then Disposition.FULL_MANUAL
       else if vs.any needsReview then Disposition.PARTIAL_MANUAL
       else Disposition.AUTO_COMPLETE) := by
  unfold disposition
  rw [track_fst, track_snd, any_not_unreadable]
  cases hA : vs.all (fun v => decide (v = Verdict.UNREADABLE)) <;> simp [hA]

/-- The script status is `FULL_MANUAL` exactly when every verdict is
`UNREADABLE`. -/
theorem disposition_full_iff (vs : List Verdict) :
    disposition vs = Disposition.FULL_MANUAL ↔ ∀ v ∈ vs, v = Verdict.UNREADABLE := by
  rw [disposition_eq_cases]
  split_ifs with h1 h2
  · simp only [List.all_eq_true, decide_eq_true_eq] at h1
    simpa using h1
  · simp only [List.all_eq_true, decide_eq_true_eq] at h1
    simp [h1]
  · simp only [List.all_eq_true, decide_eq_true_eq] at h1
    simp [h1]

/-- On a nonempty verdict list the script status is `AUTO_COMPLETE`
exactly when every verdict is `OK`. -/
theorem disposition_auto_iff (vs : List Verdict) (h : vs ≠ []) :
    disposition vs = Disposition.AUTO_COMPLETE ↔ ∀ v ∈ vs, v = Verdict.OK := by
  rw [disposition_eq_cases]
  split_ifs with h1 h2
  · simp only [List.all_eq_true, decide_eq_true_eq] at h1
    obtain ⟨v, hv⟩ := List.exists_mem_of_ne_nil vs h
    have hvU := h1 v hv
    constructor
    · intro hc
      exact absurd hc (by decide)
    · intro hOK
      have := hOK v hv
      rw [hvU] at this
      exact absurd this (by decide)
  · simp only [List.any_eq_true] at h2
    obtain ⟨v, hv, hbad⟩ := h2
    have hvne : v ≠ Verdict.OK := (needsReview_iff v).mp hbad
    constructor
    · intro hc
      exact absurd hc (by decide)
    · intro hOK
      exact absurd (hOK v hv) hvne
  · simp only [List.any_eq_true] at h2
    constructor
    · intro _ v hv
      by_contra hne
      exact h2 ⟨v, hv, (needsReview_iff v).mpr hne⟩
    · intro _
      rfl

/-- The script status is `PARTIAL_MANUAL` exactly when some verdict needs
review and some verdict is readable. -/
theorem disposition_partial_iff (vs : List Verdict) :
    disposition vs = Disposition.PARTIAL_MANUAL ↔
      (∃ v ∈ vs, v ≠ Verdict.OK) ∧ (∃ v ∈ vs, v ≠ Verdict.UNREADABLE) := by
  rw [disposition_eq_cases]
  split_ifs with h1 h2
  · simp only [List.all_eq_true, decide_eq_true_eq] at h1
    constructor
    · intro hc
      exact absurd hc (by decide)
    · rintro ⟨-, ⟨v, hv, hne⟩⟩
      exact hne (h1 v hv)
  · simp only [List.all_eq_true, decide_eq_true_eq] at h1
    push_neg at h1
    simp only [List.any_eq_true] at h2
    obtain ⟨v, hv, hbad⟩ := h2
    obtain ⟨w, hw, hwne⟩ := h1
    constructor
    · intro _
      exact ⟨⟨v, hv, (needsReview_iff v).mp hbad⟩, ⟨w, hw, hwne⟩⟩
    · intro _
      rfl
  · simp only [List.any_eq_true] at h2
    constructor
    · intro hc
      exact absurd hc (by decide)
    · rintro ⟨⟨v, hv, hne⟩, -⟩
      exact h2 ⟨v, hv, (needsReview_iff v).mpr hne⟩

/-- The question loop yields one row per configured question. -/
theorem processQuestions_length (t : Str) (qs : List QuestionDef) :
    (processQuestions t qs).length = qs.length := by
  induction qs with
  | nil => rfl
  | cons q rest ih => simp [processQuestions, ih]

set_option maxRecDepth 100000 in
/-- Counterexample for C1: a transcript on which every question of the
configured exam is readable but `TOO_SHORT`, so every question needs
review (not merely some), yet the disposition is `PARTIAL_MANUAL` —
contradicting the claim that `PARTIAL_MANUAL` holds exactly when some but
not all questions need review. -/
theorem C1_counterexample :
    (process_single_script sName (none, none, IdStatus.OK) (some exT)
      EXAM_QUESTIONS).script_status = Disposition.PARTIAL_MANUAL ∧
    ((process_single_script sName (none, none, IdStatus.OK) (some exT)
      EXAM_QUESTIONS).questions.all
        (fun qr => decide (qr.ocr_status = Verdict.TOO_SHORT))) = true := by
  constructor
  · decide
  · decide

/-- Claim C1 (amended): for a script with a present transcript and a
nonempty question list, the disposition is `AUTO_COMPLETE` exactly when
every verdict is `OK`, `FULL_MANUAL` exactly when every verdict is
`UNREADABLE`, and `PARTIAL_MANUAL` exactly when at least one question
needs review and at least one question is readable (the claim's
"some but not all need review" is corrected to "some question needs
review"). -/
theorem C1_theorem (nm : String) (ident : Option Str × Option Str × IdStatus) (t : Str)
    (qs : List QuestionDef) (h : qs ≠ []) :
    ((process_single_script nm ident (some t) qs).script_status = Disposition.AUTO_COMPLETE ↔
      ((process_single_script nm ident (some t) qs).questions.all
        (fun qr => decide (qr.ocr_status = Verdict.OK))) = true) ∧
    ((process_single_script nm ident (some t) qs).script_status = Disposition.FULL_MANUAL ↔
      ((process_single_script nm ident (some t) qs).questions.all
        (fun qr => decide (qr.ocr_status = Verdict.UNREADABLE))) = true) ∧
    ((process_single_script nm ident (some t) qs).script_status = Disposition.PARTIAL_MANUAL ↔
      ((process_single_script nm ident (some t) qs).questions.any
        (fun qr => decide (qr.ocr_status ≠ Verdict.OK))) = true ∧
      ((process_single_script nm ident (some t) qs).questions.any
        (fun qr => decide (qr.ocr_status ≠ Verdict.UNREADABLE))) = true) := by
  have hne : (processQuestions t qs).map (fun p => p.1.ocr_status) ≠ [] := by
    intro hc
    apply h
    have hlen := congrArg List.length hc
    simp [processQuestions_length] at hlen
    exact hlen
  refine ⟨?_, ?_, ?_⟩
  · simp only [process_single_script]
    rw [disposition_auto_iff _ hne]
    simp [List.all_eq_true, List.map_map]
    exact ⟨fun hh x y hm => hh _ x y hm rfl,
      fun hh v x y hm he => by rw [← he]; exact hh x y hm⟩
  · simp only [process_single_script]
    rw [disposition_full_iff]
    simp [List.all_eq_true, List.map_map]
    exact ⟨fun hh x y hm => hh _ x y hm rfl,
      fun hh v x y hm he => by rw [← he]; exact hh x y hm⟩
  · simp only [process_single_script]
    rw [disposition_partial_iff]
    simp [List.any_eq_true, List.map_map]

/-- Witness for C1: a transcript on which all three configured questions
come out `OK`, via the `AUTO_COMPLETE` direction of the amended claim. -/
theorem C1_witness :
    EXAM_QUESTIONS ≠ [] ∧
    ((process_single_script sName (none, none, IdStatus.OK) (some goodT)
        EXAM_QUESTIONS).script_status = Disposition.AUTO_COMPLETE ↔
      ((process_single_script sName (none, none, IdStatus.OK) (some goodT)
        EXAM_QUESTIONS).questions.all
          (fun qr => decide (qr.ocr_status = Verdict.OK))) = true) :=
  ⟨by decide,
   (C1_theorem sName (none, none, IdStatus.OK) goodT EXAM_QUESTIONS (by decide)).1⟩

/-- The script status differs from `AUTO_COMPLETE` exactly when the
verdict list is empty or some verdict needs review. -/
theorem disposition_ne_auto (vs : List Verdict) :
    disposition vs ≠ Disposition.AUTO_COMPLETE ↔
      vs = [] ∨ vs.any needsReview = true := by
  rw [disposition_eq_cases]
  split_ifs with h1 h2
  · constructor
    · intro _
      cases vs with
      | nil => exact Or.inl rfl
      | cons v rest =>
        refine Or.inr ?_
        simp only [List.all_eq_true, decide_eq_true_eq] at h1
        have hv : v = Verdict.UNREADABLE := h1 v (by simp)
        simp only [List.any_eq_true]
        exact ⟨v, by simp, by simp [needsReview, hv]⟩
    · intro _
      decide
  · constructor
    · intro _
      exact Or.inr h2
    · intro _
      decide
  · constructor
    · intro hc
      exact absurd rfl hc
    · rintro (hnil | hany)
      · subst hnil
        exact absurd rfl h1
      · exact absurd hany h2

/-- The empty total rounds to zero. -/
theorem pyround1_zero : pyround1 (total_raw []) = 0 := by decide

/-- The issue scan of `generate_excel`, characterised on pipeline outputs:
a row is flagged exactly when its disposition is not `AUTO_COMPLETE`, its
total score is zero, or its identity status is `PARTIAL` or
`NEEDS_MANUAL_FIX`. -/
theorem issues_iff (nm : String) (ident : Option Str × Option Str × IdStatus)
    (full_text : Option Str) (qs : List QuestionDef) :
    script_issues (process_single_script nm ident full_text qs) = true ↔
      ((process_single_script nm ident full_text qs).script_status ≠
          Disposition.AUTO_COMPLETE ∨
        (process_single_script nm ident full_text qs).total_score = 0 ∨
        (process_single_script nm ident full_text qs).id_status = some IdStatus.PARTIAL ∨
        (process_single_script nm ident full_text qs).id_status =
          some IdStatus.NEEDS_MANUAL_FIX) := by
  cases full_text with
  | none =>
    simp only [process_single_script, script_issues]
    simp
  | some t =>
    simp only [process_single_script, script_issues]
    rw [Bool.or_eq_true, Bool.or_eq_true]
    rw [disposition_ne_auto]
    have hmapeq :
        ∀ ps : List (QuestionResult × Option ℚ),
          (ps.map (fun p => p.1.ocr_status)).any needsReview =
            (ps.map Prod.fst).any (fun q => needsReview q.ocr_status) := by
      intro ps
      induction ps with
      | nil => rfl
      | cons p rest ih => simp [ih]
    have hnil :
        ((processQuestions t qs).map (fun p => p.1.ocr_status)) = [] →
          pyround1 (total_raw ((processQuestions t qs).map Prod.snd)) = 0 := by
      intro hc
      have hq0 : processQuestions t qs = [] := by
        cases hq : processQuestions t qs with
        | nil => rfl
        | cons p rest =>
          rw [hq] at hc
          exact absurd hc (by simp)
      rw [hq0]
      exact pyround1_zero
    rw [hmapeq (processQuestions t qs)]
    constructor
    · rintro ((hid | hq) | htot)
      · simp only [decide_eq_true_eq] at hid
        rcases hid with hid | hid
        · exact Or.inr (Or.inr (Or.inr hid))
        · exact Or.inr (Or.inr (Or.inl hid))
      · exact Or.inl (Or.inr hq)
      · simp only [decide_eq_true_eq] at htot
        exact Or.inr (Or.inl htot)
    · rintro (hst | htot | hid | hid)
      · rcases hst with hnil2 | hany
        · exact Or.inr (decide_eq_true (hnil hnil2))
        · exact Or.inl (Or.inr hany)
      · exact Or.inr (decide_eq_true htot)
      · exact Or.inl (Or.inl (decide_eq_true (Or.inr hid)))
      · exact Or.inl (Or.inl (decide_eq_true (Or.inl hid)))

/-- Claim C2 (amended): the review subset contains exactly the scripts
whose disposition is not `AUTO_COMPLETE`, whose total score is zero or
missing, or whose identity status is `PARTIAL` or `NEEDS_MANUAL_FIX` (the
claim's "regardless of its identity status" fails: an unreadable identity
alone also puts a script in the subset). -/
theorem C2_theorem (qs : List QuestionDef)
    (scripts : List (String × (Option Str × Option Str × IdStatus) × Option Str))
    (r : ScriptResult) (hr : r ∈ run_batch scripts qs) :
    (r ∈ review_list (run_batch scripts qs)) ↔
      (r.script_status ≠ Disposition.AUTO_COMPLETE ∨ r.total_score = 0 ∨
       r.id_status = some IdStatus.PARTIAL ∨
       r.id_status = some IdStatus.NEEDS_MANUAL_FIX) := by
  rw [review_list, List.mem_filter]
  obtain ⟨s, hs, rfl⟩ := List.mem_map.mp hr
  simp only [hr, true_and]
  exact issues_iff s.1 s.2.1 s.2.2 qs

set_option maxRecDepth 100000 in
/-- Counterexample for C2: a script whose disposition is `AUTO_COMPLETE`
with a nonzero total score is nevertheless in the review subset when its
identity status is `PARTIAL` — the issue scan flags an unreadable
identity independently of disposition and total. -/
theorem C2_counterexample :
    (process_single_script sName (none, none, IdStatus.PARTIAL) (some goodT)
      EXAM_QUESTIONS).script_status = Disposition.AUTO_COMPLETE ∧
    (process_single_script sName (none, none, IdStatus.PARTIAL) (some goodT)
      EXAM_QUESTIONS).total_score ≠ 0 ∧
    review_list [process_single_script sName (none, none, IdStatus.PARTIAL) (some goodT)
      EXAM_QUESTIONS] ≠ [] := by
  refine ⟨by decide, by decide, by decide⟩

/-- Witness for C2: the amended review-subset characterisation at a
concrete one-script batch. -/
theorem C2_witness :
    (process_single_script sName (none, none, IdStatus.PARTIAL) (some goodT)
        EXAM_QUESTIONS ∈
      review_list (run_batch [(sName, (none, none, IdStatus.PARTIAL), some goodT)]
        EXAM_QUESTIONS)) ↔
      ((process_single_script sName (none, none, IdStatus.PARTIAL) (some goodT)
          EXAM_QUESTIONS).script_status ≠ Disposition.AUTO_COMPLETE ∨
       (process_single_script sName (none, none, IdStatus.PARTIAL) (some goodT)
          EXAM_QUESTIONS).total_score = 0 ∨
       (process_single_script sName (none, none, IdStatus.PARTIAL) (some goodT)
          EXAM_QUESTIONS).id_status = some IdStatus.PARTIAL ∨
       (process_single_script sName (none, none, IdStatus.PARTIAL) (some goodT)
          EXAM_QUESTIONS).id_status = some IdStatus.NEEDS_MANUAL_FIX) :=
  C2_theorem EXAM_QUESTIONS [(sName, (none, none, IdStatus.PARTIAL), some goodT)] _
    (by simp [run_batch])

/-- A nonempty list has a last element. -/
theorem getLast_cons_some {α : Type} (c : α) (l : List α) :
    ∃ x, (c :: l).getLast? = some x := by
  induction l generalizing c with
  | nil => exact ⟨c, rfl⟩
  | cons d l2 ih =>
    rw [List.getLast?_cons_cons]
    exact ih d

/-- The name retention loop keeps the first cleaned capture longer than 3
characters, else the last cleaned capture, else the accumulator. -/
theorem nameLoop_eq (ms : List (Option Str)) :
    ∀ acc : Option Str,
      nameLoop acc ms =
        (match ((ms.filterMap id).map cleanName).find?
            (fun n => decide (3 < n.length)) with
         | some n => some n
         | none =>
           match ((ms.filterMap id).map cleanName).getLast? with
           | some n => some n
           | none => acc) := by
  induction ms with
  | nil =>
    intro acc
    rfl
  | cons o rest ih =>
    intro acc
    cases o with
    | none => exact ih acc
    | some g =>
      have hfc : (((some g :: rest).filterMap id).map cleanName) =
          cleanName g :: ((rest.filterMap id).map cleanName) := rfl
      by_cases hg : 3 < (cleanName g).length
      · have hl : nameLoop acc (some g :: rest) = some (cleanName g) := by
          simp [nameLoop, hg]
        rw [hl, hfc, List.find?_cons_of_pos _ (by simpa using hg)]
      · have hl : nameLoop acc (some g :: rest) =
            nameLoop (some (cleanName g)) rest := by
          simp [nameLoop, hg]
        rw [hl, ih (some (cleanName g)), hfc,
          List.find?_cons_of_neg _ (by simpa using hg)]
        cases hf : ((rest.filterMap id).map cleanName).find?
            (fun n => decide (3 < n.length)) with
        | some n => rfl
        | none =>
          cases hcr : ((rest.filterMap id).map cleanName) with
          | nil => rfl
          | cons c l =>
            rw [List.getLast?_cons_cons]
            obtain ⟨x, hx⟩ := getLast_cons_some c l
            rw [hx]

/-- The registration retention loop keeps the first stripped capture of
length at least 4, else the last stripped capture, else the
accumulator. -/
theorem regLoop_eq (ms : List (Option Str)) :
    ∀ acc : Option Str,
      regLoop acc ms =
        (match ((ms.filterMap id).map strip).find?
            (fun n => decide (4 ≤ n.length)) with
         | some n => some n
         | none =>
           match ((ms.filterMap id).map strip).getLast? with
           | some n => some n
           | none => acc) := by
  induction ms with
  | nil =>
    intro acc
    rfl
  | cons o rest ih =>
    intro acc
    cases o with
    | none => exact ih acc
    | some g =>
      have hfc : (((some g :: rest).filterMap id).map strip) =
          strip g :: ((rest.filterMap id).map strip) := rfl
      by_cases hg : 4 ≤ (strip g).length
      · have hl : regLoop acc (some g :: rest) = some (strip g) := by
          simp [regLoop, hg]
        rw [hl, hfc, List.find?_cons_of_pos _ (by simpa using hg)]
      · have hl : regLoop acc (some g :: rest) = regLoop (some (strip g)) rest := by
          simp [regLoop, hg]
        rw [hl, ih (some (strip g)), hfc,
          List.find?_cons_of_neg _ (by simpa using hg)]
        cases hf : ((rest.filterMap id).map strip).find?
            (fun n => decide (4 ≤ n.length)) with
        | some n => rfl
        | none =>
          cases hcr : ((rest.filterMap id).map strip) with
          | nil => rfl
          | cons c l =>
            rw [List.getLast?_cons_cons]
            obtain ⟨x, hx⟩ := getLast_cons_some c l
            rw [hx]

/-- Counterexample for C3: header text `"Name: Ab"` makes the first name
pattern capture `"Ab"` (cleaned length 2, not exceeding 3) while the other
patterns and all registration patterns fail; the loop retains `"Ab"`, so a
name is reported as found although no pattern's cleaned capture exceeds 3
characters, and the status is `PARTIAL` instead of the claimed
`NEEDS_MANUAL_FIX`. -/
theorem C3_counterexample :
    strTruthy (extract_name_reg_from_top true [some abCap, none, none]
      [none, none, none, none]).1 = true ∧
    (cleanName abCap).length ≤ 3 ∧
    (extract_name_reg_from_top true [some abCap, none, none]
      [none, none, none, none]).2.2 = IdStatus.PARTIAL := by
  refine ⟨by decide, by decide, by decide⟩

/-- Claim C3 (amended): with an image present, the extractor returns the
`nameSpec` name (first cleaned capture exceeding 3 characters, else the
last cleaned capture even when shorter), the `regSpec` identifier (first
stripped capture of length at least 4, else the last stripped capture),
and the status is `OK` exactly when both retained values are truthy,
`PARTIAL` exactly when exactly one is, `NEEDS_MANUAL_FIX` exactly when
neither is; with no image it returns `(None, None, NO_IMAGE)`. -/
theorem C3_theorem (nms rms : List (Option Str)) :
    extract_name_reg_from_top true nms rms =
      (nameSpec nms, regSpec rms, idStatusOf (nameSpec nms) (regSpec rms)) ∧
    extract_name_reg_from_top false nms rms = (none, none, IdStatus.NO_IMAGE) ∧
    (∀ n r : Option Str,
      (idStatusOf n r = IdStatus.OK ↔ strTruthy n = true ∧ strTruthy r = true) ∧
      (idStatusOf n r = IdStatus.PARTIAL ↔ strTruthy n ≠ strTruthy r) ∧
      (idStatusOf n r = IdStatus.NEEDS_MANUAL_FIX ↔
        strTruthy n = false ∧ strTruthy r = false)) := by
  refine ⟨?_, rfl, ?_⟩
  · show (nameLoop none nms, regLoop none rms,
        idStatusOf (nameLoop none nms) (regLoop none rms)) =
      (nameSpec nms, regSpec rms, idStatusOf (nameSpec nms) (regSpec rms))
    rw [nameLoop_eq nms none, regLoop_eq rms none]
    rfl
  · intro n r
    cases hn : strTruthy n <;> cases hr : strTruthy r <;>
      simp [idStatusOf, hn, hr]

/-- The source's variation loop plus fallback equals the first hit of the
spec's ordered strategy list. -/
theorem marker_hit_eq (t m : Str) : marker_hit t m = firstSome (strategies_spec t m) := by
  unfold marker_hit strategies_spec
  cases h1 : searchCI (mLit (lc m)) t with
  | some r => simp [firstSome, h1]
  | none =>
    cases h2 : searchCI (mWsSep (splitChar ' ' (lc m))) t with
    | some r => simp [firstSome, h1, h2]
    | none =>
      cases h3 : searchCI (mLazy (splitChar ' ' (lc m))) t with
      | some r => simp [firstSome, h1, h2, h3]
      | none =>
        simp only [h1, h2, h3, List.cons_append, List.nil_append, firstSome]
        by_cases h4 : 2 ≤ ((splitWs (lc m)).take 3).length
        · rw [if_pos h4, if_pos h4]
          cases h5 : searchCI (mLazy ((splitWs (lc m)).take 3)) t <;>
            simp [firstSome, h5]
        · rw [if_neg h4, if_neg h4]
          rfl

/-- The source's end-position search equals the first hit of the spec's
two-strategy list for the next marker. -/
theorem end_eq (t : Str) (s : Nat) (next_marker : Option Str) :
    end_pos_of t s next_marker = segment_end_spec t s next_marker := by
  cases next_marker with
  | none => rfl
  | some nm =>
    show next_hit_end t s nm = _
    unfold next_hit_end segment_end_spec
    cases h1 : searchCI (mLit (lc nm)) (t.drop s) with
    | some r => simp [firstSome, h1]
    | none =>
      cases h2 : searchCI (mLazy ((splitWs (lc nm)).take 3)) (t.drop s) with
      | some r => simp [firstSome, h1, h2]
      | none => simp [firstSome, h1, h2]

/-- The source's keep-test (`answer and len(answer) > 5`) equals the
spec's drop-test (empty or at most 5 characters). -/
theorem final_if_eq (a : Str) :
    (if a ≠ [] ∧ 5 < a.length then some a else none) =
      (if a = [] ∨ a.length ≤ 5 then none else some a) := by
  by_cases hnil : a = []
  · subst hnil
    simp
  · by_cases hlen : 5 < a.length
    · have hc2 : ¬ (a = [] ∨ a.length ≤ 5) := by
        push_neg
        exact ⟨hnil, by omega⟩
      rw [if_pos ⟨hnil, hlen⟩, if_neg hc2]
    · have hc1 : ¬ (a ≠ [] ∧ 5 < a.length) := fun hc => hlen hc.2
      have hc2 : a = [] ∨ a.length ≤ 5 := Or.inr (by omega)
      rw [if_neg hc1, if_pos hc2]

/-- Claim C4: segmentation tries the four match strategies in the stated
order (exact case-insensitive literal; spaces as one-or-more whitespace;
spaces as non-greedy any-characters; first-three-words fallback only when
the phrase has at least two words), takes the first that matches and
returns `None` when none match; the span ends at the start of the next
marker's match in the remainder (or end-of-transcript), or at
`min(start + 1000, end)` for the last question; the result is `None`
whenever the trimmed span is empty or at most 5 characters. -/
theorem C4_theorem (t m : Str) (next_marker : Option Str) :
    find_answer_by_marker t m next_marker = segment_spec t m next_marker := by
  unfold find_answer_by_marker segment_spec
  rw [marker_hit_eq]
  cases firstSome (strategies_spec t m) with
  | none => rfl
  | some se =>
    show (if answer_cut t se.2 (end_pos_of t se.2 next_marker) ≠ [] ∧
        5 < (answer_cut t se.2 (end_pos_of t se.2 next_marker)).length then
        some (answer_cut t se.2 (end_pos_of t se.2 next_marker))
      else none) =
      (if answer_cut t se.2 (segment_end_spec t se.2 next_marker) = [] ∨
          (answer_cut t se.2 (segment_end_spec t se.2 next_marker)).length ≤ 5 then
        none
      else some (answer_cut t se.2 (segment_end_spec t se.2 next_marker)))
    rw [← end_eq]
    exact final_if_eq (answer_cut t se.2 (end_pos_of t se.2 next_marker))

end ExamApp
